import Mathlib

/-!
Verification of the Redis-backed state-store layer of the oidc-client-ts
server-side extension: `RedisStateStore` (src/RedisStateStore.ts) and the
session-management methods of `ServerSideUserManager`
(src/ServerSideOidcClient.ts), over a model of the external key-value
backend as specified at its interface boundary (spec §6: set-with-ttl, get,
delete, list-keys-by-pattern, set-ttl, check-exists).
-/

set_option maxHeartbeats 1000000

/-- One call made to the external key-value backend, recorded so that
properties about the number and order of backend calls can be stated. -/
inductive RCall where
  | setEx : String → Nat → String → RCall
  | get : String → RCall
  | del : List String → RCall
  | keys : String → RCall
  | expire : String → Nat → RCall
  | existsQ : String → RCall
deriving DecidableEq

/-- State of the external key-value backend: the key/value map, the
per-key remaining TTLs, and the trace of calls made so far. The map and
TTL table are association lists (insertion replaces in place, matching a
map). -/
structure RedisState where
  store : List (String × String)
  ttls : List (String × Nat)
  trace : List RCall
deriving DecidableEq

/-- The empty backend: no keys, no calls made. -/
def emptyRedis : RedisState := { store := [], ttls := [], trace := [] }

/-- Association-list insert: replaces the entry for `k` in place if present,
otherwise appends at the end (the semantics of `Map.set`). -/
def alSet {α : Type} : List (String × α) → String → α → List (String × α)
  | [], k, v => [(k, v)]
  | (k', v') :: rest, k, v =>
      if k' = k then (k, v) :: rest else (k', v') :: alSet rest k v

/-- Association-list lookup (the semantics of `Map.get`). -/
def alGet {α : Type} : List (String × α) → String → Option α
  | [], _ => none
  | (k', v') :: rest, k => if k' = k then some v' else alGet rest k

/-- Association-list delete (the semantics of `Map.delete`). -/
def alDel {α : Type} (l : List (String × α)) (k : String) : List (String × α) :=
  l.filter (fun p => !(p.1 == k))

/-- Does the string `s` start with `pat`? Used to model the backend's
list-keys-by-pattern operation for a glob of the shape `pat*`
(spec §6: prefix-glob). -/
def strStartsWith (s pat : String) : Bool :=
  pat.data.isPrefixOf s.data

/-- Drop the first `n` characters of a string (the semantics of
`String.prototype.substring(n)`). -/
def strDrop (s : String) (n : Nat) : String :=
  ⟨s.data.drop n⟩

/-- Backend set-with-ttl (`setEx key ttl value`): overwrites the value,
resets the TTL (spec §6 set-with-ttl). -/
def redisSetEx (σ : RedisState) (k : String) (ttl : Nat) (v : String) : RedisState :=
  { store := alSet σ.store k v
    ttls := alSet σ.ttls k ttl
    trace := σ.trace ++ [RCall.setEx k ttl v] }

/-- Backend get: the stored value, or absent; no side effect on the map
(spec §6 get). -/
def redisGet (σ : RedisState) (k : String) : RedisState × Option String :=
  ({ σ with trace := σ.trace ++ [RCall.get k] }, alGet σ.store k)

/-- Backend delete of a list of keys: removes each key and its TTL
(spec §6 delete; callers in this codebase discard the returned count). -/
def redisDel (σ : RedisState) (ks : List String) : RedisState :=
  { store := ks.foldl alDel σ.store
    ttls := ks.foldl alDel σ.ttls
    trace := σ.trace ++ [RCall.del ks] }

/-- Backend list-keys-by-pattern for the prefix glob `pat ++ "*"`: every
stored key starting with `pat`, in store order (spec §6
list-keys-by-pattern). -/
def redisKeys (σ : RedisState) (pat : String) : RedisState × List String :=
  ({ σ with trace := σ.trace ++ [RCall.keys (pat ++ "*")] },
   (σ.store.map Prod.fst).filter (fun k => strStartsWith k pat))

/-- Backend set-ttl: resets the TTL and answers true if the key exists,
otherwise changes nothing and answers false (spec §6 set-ttl). -/
def redisExpire (σ : RedisState) (k : String) (seconds : Nat) : RedisState × Bool :=
  if (alGet σ.store k).isSome then
    ({ σ with ttls := alSet σ.ttls k seconds
              trace := σ.trace ++ [RCall.expire k seconds] }, true)
  else
    ({ σ with trace := σ.trace ++ [RCall.expire k seconds] }, false)

/-- Backend check-exists: 1 if the key exists, else 0 (spec §6
check-exists; the numeric result mirrors the Redis EXISTS reply that
`RedisStateStore.exists` compares against 1). -/
def redisExists (σ : RedisState) (k : String) : RedisState × Nat :=
  ({ σ with trace := σ.trace ++ [RCall.existsQ k] },
   if (alGet σ.store k).isSome then 1 else 0)

/-- Constructor configuration of `RedisStateStore` (src/RedisStateStore.ts,
`RedisConfig`): the recognized options `keyPrefix` and `ttl`; `none`
models an omitted option. Only these two fields are consulted by the
store, so the connection-related options are not modelled. -/
structure RedisConfig where
  keyPfx : Option String := none
  ttl : Option Nat := none
deriving DecidableEq

/-- JavaScript truthiness of an optional string: `undefined` and the empty
string are falsy. -/
def jsTruthyStr : Option String → Bool
  | none => false
  | some s => !(s == "")

/-- JavaScript truthiness of an optional number: `undefined` and 0 are
falsy. -/
def jsTruthyNat : Option Nat → Bool
  | none => false
  | some n => !(n == 0)

/-- The JavaScript expression `v || d` for an optional string `v`. -/
def jsOrStr (v : Option String) (d : String) : String :=
  match v with
  | none => d
  | some s => if s == "" then d else s

/-- The JavaScript expression `v || d` for an optional number `v`. -/
def jsOrNat (v : Option Nat) (d : Nat) : Nat :=
  match v with
  | none => d
  | some n => if n == 0 then d else n

/-- The `RedisStateStore` instance state after construction: its key
namespace string (source field `_prefix`) and default TTL in seconds
(source field `_ttl`). The injected backend client is passed explicitly
to each operation as a `RedisState`. -/
structure RedisStateStore where
  pfx : String
  ttl : Nat
deriving DecidableEq

/-- The `RedisStateStore` constructor: `this._prefix = config.keyPrefix ||
"oidc:"; this._ttl = config.ttl || 3600`. -/
def RedisStateStore.ofConfig (config : RedisConfig) : RedisStateStore :=
  { pfx := jsOrStr config.keyPfx "oidc:"
    ttl := jsOrNat config.ttl 3600 }

/-- `RedisStateStore.set`: `setEx(prefix + key, this._ttl, value)`. -/
def RedisStateStore.set (st : RedisStateStore) (σ : RedisState)
    (key value : String) : RedisState :=
  redisSetEx σ (st.pfx ++ key) st.ttl value

/-- `RedisStateStore.get`: `get(prefix + key)`. -/
def RedisStateStore.get (st : RedisStateStore) (σ : RedisState)
    (key : String) : RedisState × Option String :=
  redisGet σ (st.pfx ++ key)

/-- `RedisStateStore.remove`: read `prefix + key`, delete it, return the
value that was read (read-then-delete, two backend calls). -/
def RedisStateStore.remove (st : RedisStateStore) (σ : RedisState)
    (key : String) : RedisState × Option String :=
  let r := redisGet σ (st.pfx ++ key)
  (redisDel r.1 [st.pfx ++ key], r.2)

/-- `RedisStateStore.getAllKeys`: list keys matching `prefix + "*"`, strip
the prefix from each (`key.substring(this._prefix.length)`). -/
def RedisStateStore.getAllKeys (st : RedisStateStore) (σ : RedisState) :
    RedisState × List String :=
  let r := redisKeys σ st.pfx
  (r.1, r.2.map (fun k => strDrop k st.pfx.length))

/-- `RedisStateStore.expire`: set the TTL on `prefix + key`; when the
backend reports the key missing, only a warning is logged (returned here
as the list of warnings) and no error is raised. -/
def RedisStateStore.expire (st : RedisStateStore) (σ : RedisState)
    (key : String) (seconds : Nat) : RedisState × List String :=
  let r := redisExpire σ (st.pfx ++ key) seconds
  if r.2 then (r.1, []) else (r.1, ["Failed to set expiration for key: " ++ key])

/-- `RedisStateStore.exists`: check-exists on `prefix + key`, comparing the
numeric reply against 1. -/
def RedisStateStore.checkExists (st : RedisStateStore) (σ : RedisState)
    (key : String) : RedisState × Bool :=
  let r := redisExists σ (st.pfx ++ key)
  (r.1, r.2 == 1)

/-- `RedisStateStore.flushAll`: list keys matching `prefix + "*"`; if any
exist, delete them in one bulk call; otherwise make no delete call. -/
def RedisStateStore.flushAll (st : RedisStateStore) (σ : RedisState) : RedisState :=
  let r := redisKeys σ st.pfx
  if r.2.length > 0 then redisDel r.1 r.2 else r.1

/-- The eight fields of a stored user session, as serialized by
`ServerSideUserManager.storeUserSession` (src/ServerSideOidcClient.ts).
The `profile` and `state` payloads are opaque to the session layer and
are modelled by their serialized forms. -/
structure UserRecord where
  access_token : String
  token_type : String
  id_token : Option String
  refresh_token : Option String
  scope : Option String
  profile : String
  expires_at : Option Nat
  state : Option String
deriving DecidableEq

/-- `ServerSideUserManager.storeUserSession`: serialize the eight session
fields (`JSON.stringify`, passed in as `stringify`), `set` under key
`"session:" ++ sessionKey`, and, when the optional `ttl` argument is
truthy (`if (ttl)`), additionally call `expire` on the same key. -/
def storeUserSession (stringify : UserRecord → String) (st : RedisStateStore)
    (σ : RedisState) (sessionKey : String) (user : UserRecord)
    (ttl : Option Nat) : RedisState :=
  let userJson := stringify user
  let σ1 := st.set σ ("session:" ++ sessionKey) userJson
  if jsTruthyNat ttl then
    (st.expire σ1 ("session:" ++ sessionKey) (ttl.getD 0)).1
  else
    σ1

/-- `ServerSideUserManager.getUserSession`: `get` under
`"session:" ++ sessionKey`; a falsy result (absent key or empty string)
yields null, and a `JSON.parse` failure (`parse` returning `none`,
modelling the try/catch) also yields null. A successful parse yields the
record (`new User(userData)` is modelled, per the spec's SessionRecord
description, as the identity on the eight stored fields). -/
def getUserSession (parse : String → Option UserRecord) (st : RedisStateStore)
    (σ : RedisState) (sessionKey : String) : RedisState × Option UserRecord :=
  let r := st.get σ ("session:" ++ sessionKey)
  match r.2 with
  | none => (r.1, none)
  | some s => if s == "" then (r.1, none) else (r.1, parse s)

/-- `ServerSideUserManager.removeUserSession`: `remove` under
`"session:" ++ sessionKey`, discarding the returned value. -/
def removeUserSession (st : RedisStateStore) (σ : RedisState)
    (sessionKey : String) : RedisState :=
  (st.remove σ ("session:" ++ sessionKey)).1

/-- `ServerSideUserManager.hasUserSession`: `exists` under
`"session:" ++ sessionKey`. -/
def hasUserSession (st : RedisStateStore) (σ : RedisState)
    (sessionKey : String) : RedisState × Bool :=
  st.checkExists σ ("session:" ++ sessionKey)

/-- Modelled from the spec: the protocol engine (`OidcClient`, not under
src/) persists FlowState through the injected state store "keyed by a
per-flow correlation identifier" (spec §2, §3), so the backend key for
the flow state of correlation id `c` is the store's key for `c`:
`prefix ++ c`. -/
def flowStateBackendKey (st : RedisStateStore) (correlationId : String) : String :=
  st.pfx ++ correlationId

/-- The backend key used for the session of `sessionKey`, from
`storeUserSession`: the store's key for `"session:" ++ sessionKey`. -/
def sessionBackendKey (st : RedisStateStore) (sessionKey : String) : String :=
  st.pfx ++ ("session:" ++ sessionKey)

/-! Helper lemmas about the association-list operations. -/

theorem alGet_alSet_self {α : Type} (l : List (String × α)) (k : String) (v : α) :
    alGet (alSet l k v) k = some v := by
  induction l with
  | nil => simp [alSet, alGet]
  | cons p rest ih =>
    obtain ⟨a, b⟩ := p
    by_cases h : a = k <;> simp [alSet, alGet, h, ih]

theorem alGet_alSet_ne {α : Type} (l : List (String × α)) (k k' : String) (v : α)
    (h : k' ≠ k) : alGet (alSet l k v) k' = alGet l k' := by
  induction l with
  | nil => simp [alSet, alGet, Ne.symm h]
  | cons p rest ih =>
    obtain ⟨a, b⟩ := p
    by_cases ha : a = k
    · subst ha
      simp [alSet, alGet, Ne.symm h]
    · simp [alSet, alGet, ha, ih]

theorem alGet_alDel {α : Type} (l : List (String × α)) (k k' : String) :
    alGet (alDel l k) k' = if k' = k then none else alGet l k' := by
  induction l with
  | nil => simp [alDel, alGet]
  | cons p rest ih =>
    obtain ⟨a, b⟩ := p
    by_cases ha : a = k
    · subst ha
      have h1 : alDel ((a, b) :: rest) a = alDel rest a := by
        simp [alDel, List.filter_cons]
      by_cases hk : k' = a
      · subst hk
        simp [h1, ih]
      · simp [h1, ih, hk, alGet, Ne.symm hk]
    · have h1 : alDel ((a, b) :: rest) k = (a, b) :: alDel rest k := by
        simp [alDel, List.filter_cons, ha]
      by_cases hk : k' = a
      · have hne : ¬ (k' = k) := by
          intro h
          exact ha (hk ▸ h)
        simp [h1, alGet, hk, hne, ha]
      · simp [h1, alGet, Ne.symm hk, ih]

theorem alGet_foldl_alDel {α : Type} (ks : List String) (l : List (String × α))
    (k : String) :
    alGet (ks.foldl alDel l) k = if k ∈ ks then none else alGet l k := by
  induction ks generalizing l with
  | nil => simp
  | cons a ks ih =>
    rw [List.foldl_cons, ih, alGet_alDel]
    by_cases h1 : k ∈ ks <;> by_cases h2 : k = a <;> simp [h1, h2]

theorem alGet_mem_map_fst {α : Type} (l : List (String × α)) (k : String) (v : α)
    (h : alGet l k = some v) : k ∈ l.map Prod.fst := by
  induction l with
  | nil => simp [alGet] at h
  | cons p rest ih =>
    obtain ⟨a, b⟩ := p
    by_cases ha : a = k
    · simp [ha]
    · simp [alGet, ha] at h
      simp [ih h]

theorem filter_map_fst_alSet {α : Type} (p : String → Bool) (l : List (String × α))
    (k : String) (v : α) (hp : p k = false) :
    ((alSet l k v).map Prod.fst).filter p = (l.map Prod.fst).filter p := by
  induction l with
  | nil => simp [alSet, List.filter_cons, hp]
  | cons q rest ih =>
    obtain ⟨a, b⟩ := q
    by_cases h : a = k
    · subst h
      simp [alSet, List.filter_cons, hp]
    · simp [alSet, h, List.filter_cons, ih]

/-! Helper lemmas about string prefixes and concatenation. -/

theorem not_prefix_of_append (A B k : String)
    (hAB : A.data.isPrefixOf B.data = false)
    (hBA : B.data.isPrefixOf A.data = false) :
    B.data.isPrefixOf (A ++ k).data = false := by
  rw [String.data_append]
  by_contra hc
  have hpre : B.data <+: A.data ++ k.data := by
    have := Bool.of_not_eq_false hc
    simpa using this
  have hA : A.data <+: A.data ++ k.data := List.prefix_append A.data k.data
  have htot := List.prefix_or_prefix_of_prefix hA hpre
  rcases htot with h | h
  · rw [show A.data.isPrefixOf B.data = true by simpa using h] at hAB
    exact absurd hAB (by decide)
  · rw [show B.data.isPrefixOf A.data = true by simpa using h] at hBA
    exact absurd hBA (by decide)

theorem append_ne_of_not_prefix (A B k k2 : String)
    (hAB : A.data.isPrefixOf B.data = false)
    (hBA : B.data.isPrefixOf A.data = false) :
    B ++ k2 ≠ A ++ k := by
  intro h
  have hd : B.data ++ k2.data = A.data ++ k.data := by
    have := congrArg String.data h
    simpa using this
  have hpre : B.data.isPrefixOf (A ++ k).data = true := by
    rw [String.data_append]
    simp only [List.isPrefixOf_iff_prefix]
    exact ⟨k2.data, hd⟩
  rw [not_prefix_of_append A B k hAB hBA] at hpre
  exact Bool.false_ne_true hpre

theorem string_append_left_cancel {a b c : String} (h : a ++ b = a ++ c) : b = c := by
  have hd := congrArg String.data h
  simp only [String.data_append] at hd
  exact String.ext (List.append_cancel_left hd)

/-! Claims. -/

/-- Claim C3 (confirmed): for every key `k` and every string value `v`,
including the empty string and strings containing the namespace-separator
character, `set(k, v)` followed immediately by `get(k)` returns exactly
`v`. -/
theorem C3_set_get_roundtrip (st : RedisStateStore) (σ : RedisState) (k v : String) :
    (st.get (st.set σ k v) k).2 = some v := by
  simp [RedisStateStore.get, RedisStateStore.set, redisGet, redisSetEx, alGet_alSet_self]

/-- Claim C2 (confirmed): `remove(k)` on a key that reads as absent returns
null; `remove(k)` on a key currently holding `v` returns `v` and deletes the
key, so a subsequent `get(k)` returns null and a second sequential
`remove(k)` returns null. -/
theorem C2_remove_semantics (st : RedisStateStore) (σ : RedisState) (k v : String) :
    ((st.get σ k).2 = none → (st.remove σ k).2 = none) ∧
    ((st.get σ k).2 = some v →
      (st.remove σ k).2 = some v ∧
      (st.get (st.remove σ k).1 k).2 = none ∧
      (st.remove (st.remove σ k).1 k).2 = none) := by
  constructor
  · intro h
    simpa [RedisStateStore.get, redisGet, RedisStateStore.remove] using h
  · intro h
    refine ⟨by simpa [RedisStateStore.get, redisGet, RedisStateStore.remove] using h, ?_, ?_⟩
    · simp [RedisStateStore.get, redisGet, RedisStateStore.remove, redisDel,
            alGet_foldl_alDel, alGet_alDel]
    · simp [RedisStateStore.remove, redisGet, redisDel, alGet_foldl_alDel, alGet_alDel]

/-- Witness for C2 at the concrete store prefix "oidc:", key "k1",
value "v1". -/
theorem C2_remove_semantics_witness :
    (RedisStateStore.remove ⟨"oidc:", 3600⟩
        (RedisStateStore.set ⟨"oidc:", 3600⟩ emptyRedis "k1" "v1") "k1").2 = some "v1" ∧
    (RedisStateStore.get ⟨"oidc:", 3600⟩ (RedisStateStore.remove ⟨"oidc:", 3600⟩
        (RedisStateStore.set ⟨"oidc:", 3600⟩ emptyRedis "k1" "v1") "k1").1 "k1").2 = none ∧
    (RedisStateStore.remove ⟨"oidc:", 3600⟩ (RedisStateStore.remove ⟨"oidc:", 3600⟩
        (RedisStateStore.set ⟨"oidc:", 3600⟩ emptyRedis "k1" "v1") "k1").1 "k1").2 = none :=
  (C2_remove_semantics ⟨"oidc:", 3600⟩
    (RedisStateStore.set ⟨"oidc:", 3600⟩ emptyRedis "k1" "v1") "k1" "v1").2 (by decide)

/-- Claim C10 (confirmed): constructing `RedisStateStore` with `ttl = 0` or
`keyPrefix = ""` behaves identically to omitting those options, because the
constructor's `||` defaulting tests truthiness: every subsequent `set` writes
with TTL 3600 and the key prefixed with "oidc:". -/
theorem C10_falsy_config_defaults (σ : RedisState) (k v : String)
    (kp : Option String) (t : Option Nat) :
    RedisStateStore.ofConfig ⟨some "", t⟩ = RedisStateStore.ofConfig ⟨none, t⟩ ∧
    RedisStateStore.ofConfig ⟨kp, some 0⟩ = RedisStateStore.ofConfig ⟨kp, none⟩ ∧
    RedisStateStore.set (RedisStateStore.ofConfig ⟨some "", some 0⟩) σ k v =
      redisSetEx σ ("oidc:" ++ k) 3600 v :=
  ⟨rfl, rfl, rfl⟩

/-- Claim C5 (confirmed): `getUserSession` on a key whose stored value fails
to deserialize (the `JSON.parse` model `parse` returns `none`) returns null
rather than propagating an error, indistinguishable from an absent key. -/
theorem C5_corrupt_session_absent (parse : String → Option UserRecord)
    (st : RedisStateStore) (σ : RedisState) (sk v : String)
    (hstored : (st.get σ ("session:" ++ sk)).2 = some v)
    (hbad : parse v = none) :
    (getUserSession parse st σ sk).2 = none := by
  simp only [getUserSession]
  rw [show (st.get σ ("session:" ++ sk)).2 = some v from hstored]
  by_cases hv : v == ""
  · simp [hv]
  · simp [hv, hbad]

/-- Witness for C5: a stored non-JSON value "not json" with a parser that
rejects everything yields null. -/
theorem C5_corrupt_session_absent_witness :
    (RedisStateStore.get ⟨"oidc:", 3600⟩
        (RedisStateStore.set ⟨"oidc:", 3600⟩ emptyRedis ("session:" ++ "s1") "not json")
        ("session:" ++ "s1")).2 = some "not json" ∧
    (getUserSession (fun _ => none) ⟨"oidc:", 3600⟩
        (RedisStateStore.set ⟨"oidc:", 3600⟩ emptyRedis ("session:" ++ "s1") "not json")
        "s1").2 = none :=
  ⟨by decide,
   C5_corrupt_session_absent (fun _ => none) ⟨"oidc:", 3600⟩
     (RedisStateStore.set ⟨"oidc:", 3600⟩ emptyRedis ("session:" ++ "s1") "not json")
     "s1" "not json" (by decide) rfl⟩

/-- Claim C6 (confirmed): `expire` on a key that does not exist completes
normally as a no-op — the key/value map and the TTL table are unchanged and
only a warning is produced — and it resets the remaining TTL exactly when
the key exists. -/
theorem C6_expire_missing_noop (st : RedisStateStore) (σ : RedisState)
    (k : String) (s : Nat) :
    ((st.checkExists σ k).2 = false →
      (st.expire σ k s).1.store = σ.store ∧
      (st.expire σ k s).1.ttls = σ.ttls ∧
      (st.expire σ k s).2 = ["Failed to set expiration for key: " ++ k]) ∧
    ((st.checkExists σ k).2 = true →
      (st.expire σ k s).1.store = σ.store ∧
      alGet (st.expire σ k s).1.ttls (st.pfx ++ k) = some s) := by
  unfold RedisStateStore.checkExists RedisStateStore.expire redisExists redisExpire
  by_cases h : (alGet σ.store (st.pfx ++ k)).isSome
  · simp [h, alGet_alSet_self]
  · simp [h]

/-- Witness for C6: expiring the missing key "nope" on an empty backend
leaves the backend unchanged and produces the warning, and expiring an
existing key resets its TTL. -/
theorem C6_expire_missing_noop_witness :
    ((RedisStateStore.expire ⟨"oidc:", 3600⟩ emptyRedis "nope" 300).1.store =
        emptyRedis.store ∧
      (RedisStateStore.expire ⟨"oidc:", 3600⟩ emptyRedis "nope" 300).1.ttls =
        emptyRedis.ttls ∧
      (RedisStateStore.expire ⟨"oidc:", 3600⟩ emptyRedis "nope" 300).2 =
        ["Failed to set expiration for key: " ++ "nope"]) ∧
    ((RedisStateStore.expire ⟨"oidc:", 3600⟩
        (RedisStateStore.set ⟨"oidc:", 3600⟩ emptyRedis "k1" "v1") "k1" 300).1.store =
        (RedisStateStore.set ⟨"oidc:", 3600⟩ emptyRedis "k1" "v1").store ∧
      alGet (RedisStateStore.expire ⟨"oidc:", 3600⟩
        (RedisStateStore.set ⟨"oidc:", 3600⟩ emptyRedis "k1" "v1") "k1" 300).1.ttls
        (RedisStateStore.pfx ⟨"oidc:", 3600⟩ ++ "k1") = some 300) :=
  ⟨(C6_expire_missing_noop ⟨"oidc:", 3600⟩ emptyRedis "nope" 300).1 (by decide),
   (C6_expire_missing_noop ⟨"oidc:", 3600⟩
     (RedisStateStore.set ⟨"oidc:", 3600⟩ emptyRedis "k1" "v1") "k1" 300).2 (by decide)⟩

/-- A sample session record used by concrete witnesses. -/
def sampleUser : UserRecord :=
  { access_token := "at"
    token_type := "Bearer"
    id_token := none
    refresh_token := none
    scope := some "openid"
    profile := "sub=alice"
    expires_at := some 1700000000
    state := none }

/-- Claim C7 counterexample: supplying the ttl_override 0 produces exactly
one backend call, not two, because `if (ttl)` tests JavaScript truthiness
and 0 is falsy. -/
theorem C7_counterexample :
    (storeUserSession (fun _ => "j") ⟨"oidc:", 3600⟩ emptyRedis "s1" sampleUser
      (some 0)).trace.length = 1 := by
  decide

/-- Claim C7 (amended): `storeUserSession` serializes the record and calls
`set`; whenever a nonzero ttl_override is given it additionally calls
`expire` on the same session key immediately after the `set`, so a nonzero
override produces exactly the two backend calls `[setEx, expire]` while
omitting the override — or supplying the falsy value 0 — produces exactly
the one call `[setEx]`. -/
theorem C7_store_session_writes (f : UserRecord → String) (st : RedisStateStore)
    (σ : RedisState) (sk : String) (u : UserRecord) (t : Nat) (ht : t ≠ 0) :
    (storeUserSession f st σ sk u (some t)).trace =
      σ.trace ++ [RCall.setEx (st.pfx ++ ("session:" ++ sk)) st.ttl (f u),
                  RCall.expire (st.pfx ++ ("session:" ++ sk)) t] ∧
    (storeUserSession f st σ sk u none).trace =
      σ.trace ++ [RCall.setEx (st.pfx ++ ("session:" ++ sk)) st.ttl (f u)] ∧
    (storeUserSession f st σ sk u (some 0)).trace =
      σ.trace ++ [RCall.setEx (st.pfx ++ ("session:" ++ sk)) st.ttl (f u)] := by
  refine ⟨?_, ?_, ?_⟩
  · simp [storeUserSession, jsTruthyNat, ht, RedisStateStore.set, redisSetEx,
          RedisStateStore.expire, redisExpire, alGet_alSet_self]
  · simp [storeUserSession, jsTruthyNat, RedisStateStore.set, redisSetEx]
  · simp [storeUserSession, jsTruthyNat, RedisStateStore.set, redisSetEx]

/-- Witness for C7 at the concrete override 300. -/
theorem C7_store_session_writes_witness :
    (storeUserSession (fun _ => "j") ⟨"oidc:", 3600⟩ emptyRedis "s1" sampleUser
        (some 300)).trace =
      emptyRedis.trace ++
        [RCall.setEx ((RedisStateStore.pfx ⟨"oidc:", 3600⟩) ++ ("session:" ++ "s1"))
           (RedisStateStore.ttl ⟨"oidc:", 3600⟩) ((fun _ => "j") sampleUser),
         RCall.expire ((RedisStateStore.pfx ⟨"oidc:", 3600⟩) ++ ("session:" ++ "s1")) 300] ∧
    (storeUserSession (fun _ => "j") ⟨"oidc:", 3600⟩ emptyRedis "s1" sampleUser
        none).trace =
      emptyRedis.trace ++
        [RCall.setEx ((RedisStateStore.pfx ⟨"oidc:", 3600⟩) ++ ("session:" ++ "s1"))
           (RedisStateStore.ttl ⟨"oidc:", 3600⟩) ((fun _ => "j") sampleUser)] ∧
    (storeUserSession (fun _ => "j") ⟨"oidc:", 3600⟩ emptyRedis "s1" sampleUser
        (some 0)).trace =
      emptyRedis.trace ++
        [RCall.setEx ((RedisStateStore.pfx ⟨"oidc:", 3600⟩) ++ ("session:" ++ "s1"))
           (RedisStateStore.ttl ⟨"oidc:", 3600⟩) ((fun _ => "j") sampleUser)] :=
  C7_store_session_writes (fun _ => "j") ⟨"oidc:", 3600⟩ emptyRedis "s1" sampleUser
    300 (by decide)

/-- The key/value map written by `storeUserSession` is exactly the map after
the single `set` of the serialized record under the session key: the
optional `expire` call touches only the TTL table and the trace. -/
theorem storeUserSession_store (f : UserRecord → String) (st : RedisStateStore)
    (σ : RedisState) (sk : String) (u : UserRecord) (o : Option Nat) :
    (storeUserSession f st σ sk u o).store =
      alSet σ.store (st.pfx ++ ("session:" ++ sk)) (f u) := by
  unfold storeUserSession RedisStateStore.set redisSetEx RedisStateStore.expire redisExpire
  by_cases h : jsTruthyNat o <;> simp [h, alGet_alSet_self]

/-- Claim C8 (confirmed): for every session record whose serialization
round-trips (`parse (stringify u) = some u`, the `JSON.parse`/`JSON.stringify`
contract) and is nonempty, after `storeUserSession`, `hasUserSession` is
true and `getUserSession` returns the record field-for-field; after
`removeUserSession`, `hasUserSession` is false. -/
theorem C8_session_lifecycle (f : UserRecord → String)
    (g : String → Option UserRecord) (st : RedisStateStore) (σ : RedisState)
    (sk : String) (u : UserRecord) (o : Option Nat)
    (hround : g (f u) = some u) (hne : ¬ (f u = "")) :
    (hasUserSession st (storeUserSession f st σ sk u o) sk).2 = true ∧
    (getUserSession g st (storeUserSession f st σ sk u o) sk).2 = some u ∧
    (hasUserSession st (removeUserSession st (storeUserSession f st σ sk u o) sk) sk).2
      = false := by
  refine ⟨?_, ?_, ?_⟩
  · simp [hasUserSession, RedisStateStore.checkExists, redisExists,
          storeUserSession_store, alGet_alSet_self]
  · simp [getUserSession, RedisStateStore.get, redisGet,
          storeUserSession_store, alGet_alSet_self, hne, hround]
  · simp [hasUserSession, RedisStateStore.checkExists, redisExists,
          removeUserSession, RedisStateStore.remove, redisGet, redisDel,
          storeUserSession_store, alGet_foldl_alDel, alGet_alDel]

/-- Witness for C8 with the sample record and a serializer/parser pair
satisfying the round-trip contract at that record. -/
theorem C8_session_lifecycle_witness :
    (hasUserSession ⟨"oidc:", 3600⟩
        (storeUserSession (fun _ => "j") ⟨"oidc:", 3600⟩ emptyRedis "s1" sampleUser none)
        "s1").2 = true ∧
    (getUserSession (fun _ => some sampleUser) ⟨"oidc:", 3600⟩
        (storeUserSession (fun _ => "j") ⟨"oidc:", 3600⟩ emptyRedis "s1" sampleUser none)
        "s1").2 = some sampleUser ∧
    (hasUserSession ⟨"oidc:", 3600⟩
        (removeUserSession ⟨"oidc:", 3600⟩
          (storeUserSession (fun _ => "j") ⟨"oidc:", 3600⟩ emptyRedis "s1" sampleUser none)
          "s1")
        "s1").2 = false :=
  C8_session_lifecycle (fun _ => "j") (fun _ => some sampleUser) ⟨"oidc:", 3600⟩
    emptyRedis "s1" sampleUser none rfl (by decide)

/-- Claim C9 counterexample: a correlation id that itself begins with the
literal "session:" collides with a session key — the flow-state backend key
of "session:x" equals the session backend key of "x". -/
theorem C9_counterexample :
    flowStateBackendKey ⟨"oidc:", 3600⟩ "session:x" =
      sessionBackendKey ⟨"oidc:", 3600⟩ "x" := by
  decide

/-- Claim C9 (amended): the flow-state backend key of a correlation id `c`
and the session backend key of a session identifier `s` coincide only when
`c` is literally `"session:" ++ s`; whenever `c` does not start with
"session:" — in particular whenever the caller reuses the same identifier
for both — the two backend keys are distinct, so neither kind of entry can
overwrite or delete the other. -/
theorem C9_flow_session_keys_distinct (st : RedisStateStore) (c s : String)
    (h : strStartsWith c "session:" = false) :
    flowStateBackendKey st c ≠ sessionBackendKey st s := by
  intro heq
  have h2 : c = "session:" ++ s := by
    exact string_append_left_cancel heq
  have h3 : strStartsWith c "session:" = true := by
    subst h2
    simp [strStartsWith, String.data_append, List.isPrefixOf_iff_prefix]
  rw [h] at h3
  exact Bool.false_ne_true h3

/-- Witness for C9: reusing the identifier "abc" for both roles yields the
distinct backend keys "oidc:abc" and "oidc:session:abc". -/
theorem C9_flow_session_keys_distinct_witness :
    flowStateBackendKey ⟨"oidc:", 3600⟩ "abc" ≠ sessionBackendKey ⟨"oidc:", 3600⟩ "abc" :=
  C9_flow_session_keys_distinct ⟨"oidc:", 3600⟩ "abc" "abc" (by decide)

/-- Claim C1 counterexample: the key prefixes "a:" and "a:b" are different,
yet a key set through the "a:"-prefixed instance (backend key "a:bk") is
returned by `get` on the "a:b"-prefixed instance. -/
theorem C1_counterexample :
    ("a:" : String) ≠ "a:b" ∧
    (RedisStateStore.get ⟨"a:b", 3600⟩
      (RedisStateStore.set ⟨"a:", 3600⟩ emptyRedis "bk" "v") "k").2 = some "v" := by
  decide

/-- Claim C1 (amended): for two RedisStateStore instances over the same
backend whose key prefixes are such that neither is a string prefix of the
other, a `set` through the A instance changes nothing the B instance can
observe: `get` and `exists` on any key of B, and `getAllKeys` of B, return
exactly what they returned before the write. -/
theorem C1_namespace_isolation (stA stB : RedisStateStore) (σ : RedisState)
    (k v k2 : String)
    (hAB : stA.pfx.data.isPrefixOf stB.pfx.data = false)
    (hBA : stB.pfx.data.isPrefixOf stA.pfx.data = false) :
    (stB.get (stA.set σ k v) k2).2 = (stB.get σ k2).2 ∧
    (stB.checkExists (stA.set σ k v) k2).2 = (stB.checkExists σ k2).2 ∧
    (stB.getAllKeys (stA.set σ k v)).2 = (stB.getAllKeys σ).2 := by
  have hne : stB.pfx ++ k2 ≠ stA.pfx ++ k :=
    append_ne_of_not_prefix stA.pfx stB.pfx k k2 hAB hBA
  have hsw : strStartsWith (stA.pfx ++ k) stB.pfx = false :=
    not_prefix_of_append stA.pfx stB.pfx k hAB hBA
  refine ⟨?_, ?_, ?_⟩
  · simp [RedisStateStore.get, redisGet, RedisStateStore.set, redisSetEx,
          alGet_alSet_ne σ.store (stA.pfx ++ k) (stB.pfx ++ k2) v hne]
  · simp [RedisStateStore.checkExists, redisExists, RedisStateStore.set, redisSetEx,
          alGet_alSet_ne σ.store (stA.pfx ++ k) (stB.pfx ++ k2) v hne]
  · have hfilter := filter_map_fst_alSet (fun q => strStartsWith q stB.pfx)
      σ.store (stA.pfx ++ k) v hsw
    simp [RedisStateStore.getAllKeys, RedisStateStore.set, redisSetEx, redisKeys, hfilter]

/-- Witness for C1 with the non-overlapping prefixes "a:" and "b:". -/
theorem C1_namespace_isolation_witness :
    (RedisStateStore.get ⟨"b:", 3600⟩
        (RedisStateStore.set ⟨"a:", 3600⟩ emptyRedis "k" "v") "k2").2 =
      (RedisStateStore.get ⟨"b:", 3600⟩ emptyRedis "k2").2 ∧
    (RedisStateStore.checkExists ⟨"b:", 3600⟩
        (RedisStateStore.set ⟨"a:", 3600⟩ emptyRedis "k" "v") "k2").2 =
      (RedisStateStore.checkExists ⟨"b:", 3600⟩ emptyRedis "k2").2 ∧
    (RedisStateStore.getAllKeys ⟨"b:", 3600⟩
        (RedisStateStore.set ⟨"a:", 3600⟩ emptyRedis "k" "v")).2 =
      (RedisStateStore.getAllKeys ⟨"b:", 3600⟩ emptyRedis).2 :=
  C1_namespace_isolation ⟨"a:", 3600⟩ ⟨"b:", 3600⟩ emptyRedis "k" "v" "k2"
    (by decide) (by decide)

/-- After `flushAll`, a backend key reads as present exactly when it was
present before and does not start with the store's prefix. -/
theorem flushAll_alGet (st : RedisStateStore) (σ : RedisState) (key : String) :
    alGet (st.flushAll σ).store key =
      if strStartsWith key st.pfx then none else alGet σ.store key := by
  have hmem_iff : ∀ kk : String,
      kk ∈ (σ.store.map Prod.fst).filter (fun q => strStartsWith q st.pfx) ↔
        (kk ∈ σ.store.map Prod.fst ∧ strStartsWith kk st.pfx = true) := by
    intro kk
    simp [List.mem_filter]
  by_cases hlen :
      ((σ.store.map Prod.fst).filter (fun q => strStartsWith q st.pfx)).length > 0
  · have hflush : (st.flushAll σ).store =
        ((σ.store.map Prod.fst).filter (fun q => strStartsWith q st.pfx)).foldl
          alDel σ.store := by
      simp [RedisStateStore.flushAll, redisKeys, redisDel, hlen]
    rw [hflush, alGet_foldl_alDel]
    by_cases hsw : strStartsWith key st.pfx = true
    · by_cases hmem : key ∈ σ.store.map Prod.fst
      · have h1 : key ∈ (σ.store.map Prod.fst).filter (fun q => strStartsWith q st.pfx) :=
          (hmem_iff key).2 ⟨hmem, hsw⟩
        simp [h1, hsw]
      · have h1 : key ∉ (σ.store.map Prod.fst).filter (fun q => strStartsWith q st.pfx) := by
          intro hc
          exact hmem ((hmem_iff key).1 hc).1
        have h2 : alGet σ.store key = none := by
          cases h : alGet σ.store key with
          | none => rfl
          | some w => exact absurd (alGet_mem_map_fst σ.store key w h) hmem
        simp [h1, h2, hsw]
    · have h1 : key ∉ (σ.store.map Prod.fst).filter (fun q => strStartsWith q st.pfx) := by
        intro hc
        exact hsw ((hmem_iff key).1 hc).2
      simp [h1, hsw]
  · have hempty : (σ.store.map Prod.fst).filter (fun q => strStartsWith q st.pfx) = [] :=
      List.length_eq_zero.mp (Nat.eq_zero_of_not_pos hlen)
    have hflush : (st.flushAll σ).store = σ.store := by
      simp [RedisStateStore.flushAll, redisKeys, redisDel, hempty]
    rw [hflush]
    by_cases hsw : strStartsWith key st.pfx = true
    · have h2 : alGet σ.store key = none := by
        cases h : alGet σ.store key with
        | none => rfl
        | some w =>
          have hmem := alGet_mem_map_fst σ.store key w h
          have hin : key ∈ (σ.store.map Prod.fst).filter (fun q => strStartsWith q st.pfx) :=
            (hmem_iff key).2 ⟨hmem, hsw⟩
          rw [hempty] at hin
          simp at hin
      simp [hsw, h2]
    · simp [hsw]

/-- When no backend key starts with the store's prefix, `flushAll` makes
only the key-listing call: the trace grows by the single keys call and no
delete call is issued. -/
theorem flushAll_trace_no_del (st : RedisStateStore) (σ : RedisState)
    (h : (σ.store.map Prod.fst).filter (fun q => strStartsWith q st.pfx) = []) :
    (st.flushAll σ).trace = σ.trace ++ [RCall.keys (st.pfx ++ "*")] := by
  simp [RedisStateStore.flushAll, redisKeys, redisDel, h]

/-- Claim C4 counterexample: with store prefix "a:", `flushAll` deletes the
backend key "a:b:x" even though that key is under the different prefix
"a:b:" (it was written by the "a:b:"-prefixed instance). -/
theorem C4_counterexample :
    ("a:" : String) ≠ "a:b:" ∧
    alGet (RedisStateStore.set ⟨"a:b:", 7200⟩ emptyRedis "x" "v").store
      ("a:b:" ++ "x") = some "v" ∧
    alGet (RedisStateStore.flushAll ⟨"a:", 3600⟩
      (RedisStateStore.set ⟨"a:b:", 7200⟩ emptyRedis "x" "v")).store
      ("a:b:" ++ "x") = none := by
  decide

/-- Claim C4 (amended): `flushAll` deletes exactly the backend keys starting
with this store's own prefix — every key that does not start with the
prefix reads unchanged afterwards — and when no key starts with the prefix
it performs no delete call on the backend at all (the trace grows only by
the key-listing call). -/
theorem C4_flush_scoping (st : RedisStateStore) (σ : RedisState) (key : String) :
    (alGet (st.flushAll σ).store key =
      if strStartsWith key st.pfx then none else alGet σ.store key) ∧
    ((σ.store.map Prod.fst).filter (fun q => strStartsWith q st.pfx) = [] →
      (st.flushAll σ).trace = σ.trace ++ [RCall.keys (st.pfx ++ "*")]) :=
  ⟨flushAll_alGet st σ key, fun h => flushAll_trace_no_del st σ h⟩

/-- Witness for C4: a backend holding only the foreign key "b:x" — the
"a:"-store's flush leaves it readable and issues no delete call. -/
theorem C4_flush_scoping_witness :
    (alGet (RedisStateStore.flushAll ⟨"a:", 3600⟩
        (RedisStateStore.set ⟨"b:", 3600⟩ emptyRedis "x" "w")).store ("b:" ++ "x") =
      if strStartsWith ("b:" ++ "x") (RedisStateStore.pfx ⟨"a:", 3600⟩) then none
      else alGet (RedisStateStore.set ⟨"b:", 3600⟩ emptyRedis "x" "w").store ("b:" ++ "x")) ∧
    (RedisStateStore.flushAll ⟨"a:", 3600⟩
        (RedisStateStore.set ⟨"b:", 3600⟩ emptyRedis "x" "w")).trace =
      (RedisStateStore.set ⟨"b:", 3600⟩ emptyRedis "x" "w").trace ++
        [RCall.keys (RedisStateStore.pfx ⟨"a:", 3600⟩ ++ "*")] :=
  ⟨(C4_flush_scoping ⟨"a:", 3600⟩
      (RedisStateStore.set ⟨"b:", 3600⟩ emptyRedis "x" "w") ("b:" ++ "x")).1,
   (C4_flush_scoping ⟨"a:", 3600⟩
      (RedisStateStore.set ⟨"b:", 3600⟩ emptyRedis "x" "w") ("b:" ++ "x")).2 (by decide)⟩
